import Mathlib

/-!
Verification of the Foucault pendulum simulator (`src/focault_pendulum.py`).

The Python source computes with IEEE floats via numpy; here the arithmetic is
embedded over the real numbers `ℝ`, which is the idealisation the spec's
formulas describe.  Every definition mirrors the corresponding Python
function; the simulation controller (`FoucaultPendulumSimulator`) is embedded
as a state record plus a step function over user-level commands.
-/

noncomputable section

namespace Pendulum

/-! ## PhysicsEngine (`src/focault_pendulum.py`, class `PhysicsEngine`) -/

/-- `PhysicsEngine.g = 9.81`. -/
def g : ℝ := 9.81

/-- `PhysicsEngine.L`, the default wire length `10.0`. -/
def L : ℝ := 10

/-- `PhysicsEngine.omega_e = 7.2921e-5`, Earth's angular velocity in rad/s. -/
def omega_e : ℝ := 7.2921e-5

/-- `PhysicsEngine.omega_0 = np.sqrt(g / L)`, the natural angular frequency. -/
def omega_0 : ℝ := Real.sqrt (g / L)

/-- `np.radians`: degrees to radians. -/
def radians (deg : ℝ) : ℝ := deg * (Real.pi / 180)

/-- `PhysicsEngine.calculate_inertial_position`:
in fixed mode the bob is pinned at `(amplitude, 0)`; otherwise it traces the
flattened ellipse `(amplitude·cos(ω₀·t), amplitude·0.3·sin(ω₀·t))`. -/
def calculate_inertial_position (time amplitude : ℝ) (fixed_mode : Bool) :
    ℝ × ℝ :=
  if fixed_mode then
    (amplitude, 0)
  else
    (amplitude * Real.cos (omega_0 * time),
     amplitude * 0.3 * Real.sin (omega_0 * time))

/-- `PhysicsEngine.rotate_to_earth_frame`: rotates an inertial-frame position
`(x, y)` by the precession angle
`theta = omega_e·sin(radians(latitude))·time·speed_factor` and returns
`(x_earth, y_earth, theta)`. -/
def rotate_to_earth_frame (x y time latitude speed_factor : ℝ) : ℝ × ℝ × ℝ :=
  let omega_p := omega_e * Real.sin (radians latitude)
  let theta := omega_p * time * speed_factor
  let cos_theta := Real.cos theta
  let sin_theta := Real.sin theta
  (x * cos_theta - y * sin_theta, x * sin_theta + y * cos_theta, theta)

/-- Result of `PhysicsEngine.get_precession_period`: the Python function
returns `float('inf')` or a finite number of hours. -/
inductive Period where
  | infinite : Period
  | finite (hours : ℝ) : Period
deriving DecidableEq

/-- `PhysicsEngine.get_precession_period`: `24.0 / |sin(radians(latitude))|`
hours, or infinite when `|sin(radians(latitude))| < 0.01`. -/
def get_precession_period (latitude : ℝ) : Period :=
  let sin_lat := Real.sin (radians latitude)
  if |sin_lat| < 0.01 then Period.infinite
  else Period.finite (24.0 / |sin_lat|)

/-- How the `"period"` entry of the `get_location_info` dict is produced:
a literal string (`"N/A"`, `"Infinite"`, `"24.0 hrs"`) or the formatted
value of `get_precession_period` (`f"{...:.1f} hrs"`). -/
inductive PeriodText where
  | na : PeriodText
  | infiniteText : PeriodText
  | hrs24 : PeriodText
  | formatted (p : Period) : PeriodText

/-- The dict returned by `PhysicsEngine.get_location_info`. -/
structure LocationInfo where
  name : String
  color : ℕ × ℕ × ℕ
  description : String
  explanation : String
  period : PeriodText

/-- `PhysicsEngine.get_location_info`: classifies `(latitude, fixed_mode)`
into Fixed / Equator / Pole / Mid-Latitude display info. -/
def get_location_info (latitude : ℝ) (fixed_mode : Bool) : LocationInfo :=
  if fixed_mode then
    { name := "FIXED PENDULUM"
      color := (168, 85, 247)
      description := "Earth rotates beneath pendulum"
      explanation := "Pendulum stays fixed while Earth rotates"
      period := PeriodText.na }
  else if |latitude| < 5 then
    { name := "EQUATOR"
      color := (239, 68, 68)
      description := "No visible rotation"
      explanation := "Pendulum plane stays aligned with Earth"
      period := PeriodText.infiniteText }
  else if |latitude| > 85 then
    { name := "POLE"
      color := (34, 197, 94)
      description := "Full rotation visible"
      explanation := "Complete 360 degree rotation in 24 hours"
      period := PeriodText.hrs24 }
  else
    { name := "MID-LATITUDE"
      color := (234, 179, 8)
      description := "Partial rotation visible"
      explanation := "Rotation rate depends on latitude"
      period := PeriodText.formatted (get_precession_period latitude) }

/-! ## Visualizer trail bookkeeping (`class Visualizer`) -/

/-- `Visualizer.max_trail_points = 400`. -/
def max_trail_points : ℕ := 400

/-- `Visualizer.center_x = 1100 // 2`. -/
def center_x : ℝ := 550

/-- `Visualizer.center_y = 750 // 2 + 30`. -/
def center_y : ℝ := 405

/-- Trail bookkeeping of `Visualizer.draw_pendulum`: outside fixed mode the
bob position `(center_x + x, center_y + y)` is appended and, when the length
exceeds `max_trail_points`, the oldest point (`pop(0)`) is evicted.  The
pixel-drawing side effects have no bearing on the state. -/
def draw_pendulum (trail : List (ℝ × ℝ)) (x y : ℝ) (fixed_mode : Bool) :
    List (ℝ × ℝ) :=
  if fixed_mode then trail
  else
    let t := trail ++ [(center_x + x, center_y + y)]
    if max_trail_points < t.length then t.tail else t

/-! ## Simulation controller (`class FoucaultPendulumSimulator`)

The controller state gathers every mutable field that the physics or the
claims touch: pause/fixed flags, amplitude, latitude and its slider position,
time, speed factor and its slider position, the rotation angle, the trail
(owned by the `Visualizer`), the two slider-dragging flags (owned by the
`ControlPanel`) and the info-panel visibility flag. -/

structure SimState where
  paused : Bool
  fixed_mode : Bool
  amplitude : ℝ
  latitude : ℝ
  time : ℝ
  speed_factor : ℝ
  rotation_angle : ℝ
  lat_slider_pos : ℝ
  speed_slider_pos : ℝ
  trail : List (ℝ × ℝ)
  dragging_lat : Bool
  dragging_speed : Bool
  info_visible : Bool

/-- `FoucaultPendulumSimulator.dt = 0.016`. -/
def dt : ℝ := 0.016

/-- `FoucaultPendulumSimulator._map_to_slider`. -/
def map_to_slider (value min_val max_val : ℝ) : ℝ :=
  (value - min_val) / (max_val - min_val) * 220

/-- `FoucaultPendulumSimulator._map_from_slider`. -/
def map_from_slider (pos min_val max_val : ℝ) : ℝ :=
  min_val + (pos / 220) * (max_val - min_val)

/-- The state built by `FoucaultPendulumSimulator.__init__`. -/
def init_state : SimState :=
  { paused := false
    fixed_mode := false
    amplitude := 130
    latitude := 48.8566
    time := 0
    speed_factor := 3600
    rotation_angle := 0
    lat_slider_pos := map_to_slider 48.8566 (-90) 90
    speed_slider_pos := map_to_slider 3600 100 10000
    trail := []
    dragging_lat := false
    dragging_speed := false
    info_visible := true }

/-- `FoucaultPendulumSimulator.reset`: zeroes `time` and `rotation_angle` and
clears the trail (`Visualizer.clear_trail`). -/
def reset (s : SimState) : SimState :=
  { s with time := 0, rotation_angle := 0, trail := [] }

/-- `FoucaultPendulumSimulator._set_latitude`: sets the latitude and its
slider position, then resets. -/
def set_latitude (s : SimState) (latitude : ℝ) : SimState :=
  reset { s with latitude := latitude
                 lat_slider_pos := map_to_slider latitude (-90) 90 }

/-- `FoucaultPendulumSimulator._handle_mouse_motion`: while the latitude
slider is dragged, clamp the handle, recompute the latitude and reset; while
the speed slider is dragged, clamp the handle and recompute the speed factor
(no reset); otherwise ignore the motion. -/
def handle_mouse_motion (s : SimState) (px : ℝ) : SimState :=
  if s.dragging_lat then
    let pos := max 0 (min 220 px)
    reset { s with lat_slider_pos := pos
                   latitude := map_from_slider pos (-90) 90 }
  else if s.dragging_speed then
    let pos := max 0 (min 220 px)
    { s with speed_slider_pos := pos
             speed_factor := map_from_slider pos 100 10000 }
  else s

/-- `FoucaultPendulumSimulator.update`: when not paused, advance `time` by
`dt`, run the physics pipeline, store the new rotation angle and return the
earth-frame bob position; when paused, return `(None, None)` (here `none`)
and leave the state untouched. -/
def update (s : SimState) : SimState × Option (ℝ × ℝ) :=
  if s.paused then (s, none)
  else
    let t := s.time + dt
    let p := calculate_inertial_position t s.amplitude s.fixed_mode
    let r := rotate_to_earth_frame p.1 p.2 t s.latitude s.speed_factor
    ({ s with time := t, rotation_angle := r.2.2 }, some (r.1, r.2.1))

/-- State effect of `FoucaultPendulumSimulator.draw`: when `update` returned
a position the bob is drawn, which appends to the trail via
`Visualizer.draw_pendulum`; everything else it paints is pixel output. -/
def draw (s : SimState) (pos : Option (ℝ × ℝ)) : SimState :=
  match pos with
  | none => s
  | some p =>
      { s with trail := draw_pendulum s.trail p.1 p.2 s.fixed_mode }

/-- The user-level commands dispatched by `handle_events`, plus `tick` for
one pass of the main loop (`update` followed by `draw`).  Mouse-button
events on the two sliders set/clear the dragging flags
(`_handle_mouse_down` / `MOUSEBUTTONUP`); the buttons and their keyboard
shortcuts coincide, so each appears once. -/
inductive Command where
  | tick : Command
  | togglePause : Command
  | toggleFixed : Command
  | toggleInfo : Command
  | resetCmd : Command
  | presetEquator : Command
  | presetMid : Command
  | presetPole : Command
  | startDragLat : Command
  | startDragSpeed : Command
  | stopDrag : Command
  | mouseMotion (px : ℝ) : Command

/-- Whether a command is the start of a speed-slider drag. -/
def Command.isStartDragSpeed : Command → Bool
  | .startDragSpeed => true
  | _ => false

/-- One controller step for each command, following the handlers in
`FoucaultPendulumSimulator`. -/
def step (s : SimState) : Command → SimState
  | .tick =>
      let u := update s
      draw u.1 u.2
  | .togglePause => { s with paused := !s.paused }
  | .toggleFixed => reset { s with fixed_mode := !s.fixed_mode }
  | .toggleInfo => { s with info_visible := !s.info_visible }
  | .resetCmd => reset s
  | .presetEquator => set_latitude s 0
  | .presetMid => set_latitude s 45
  | .presetPole => set_latitude s 90
  | .startDragLat => { s with dragging_lat := true }
  | .startDragSpeed => { s with dragging_speed := true }
  | .stopDrag => { s with dragging_lat := false, dragging_speed := false }
  | .mouseMotion px => handle_mouse_motion s px

/-- Running the controller from the initial state through a command list. -/
def run (cmds : List Command) : SimState :=
  cmds.foldl step init_state

/-! ## Shared helper lemmas -/

theorem radians_neg (x : ℝ) : radians (-x) = -radians x := by
  simp [radians]

theorem radians_zero : radians 0 = 0 := by
  simp [radians]

theorem radians_90 : radians 90 = Real.pi / 2 := by
  unfold radians; ring

theorem radians_30 : radians 30 = Real.pi / 6 := by
  unfold radians; ring

/-- The rotation angle produced by `rotate_to_earth_frame`, for any inertial
position. -/
theorem rotate_theta (x y time latitude speed_factor : ℝ) :
    (rotate_to_earth_frame x y time latitude speed_factor).2.2 =
      omega_e * Real.sin (radians latitude) * time * speed_factor := rfl

/-! ## C1: the oscillating-mode transform -/

/-- C1: for `t ≥ 0`, latitude in `[-90, 90]` and any amplitude and speed, the
oscillating-mode pipeline produces the inertial position
`(A·cos(ω₀·t), 0.3·A·sin(ω₀·t))` with `ω₀ = √(g/L)`, the precession angle
`θ = ω_e·sin(radians φ)·t·s`, and the displayed position
`(x·cos θ - y·sin θ, x·sin θ + y·cos θ)`. -/
theorem oscillating_mode_transform (t A lat s : ℝ) (ht : 0 ≤ t)
    (hlat₁ : -90 ≤ lat) (hlat₂ : lat ≤ 90) :
    omega_0 = Real.sqrt (g / L) ∧
    calculate_inertial_position t A false =
      (A * Real.cos (omega_0 * t), 0.3 * A * Real.sin (omega_0 * t)) ∧
    rotate_to_earth_frame (A * Real.cos (omega_0 * t))
        (0.3 * A * Real.sin (omega_0 * t)) t lat s =
      (A * Real.cos (omega_0 * t) *
          Real.cos (omega_e * Real.sin (radians lat) * t * s) -
        0.3 * A * Real.sin (omega_0 * t) *
          Real.sin (omega_e * Real.sin (radians lat) * t * s),
       A * Real.cos (omega_0 * t) *
          Real.sin (omega_e * Real.sin (radians lat) * t * s) +
        0.3 * A * Real.sin (omega_0 * t) *
          Real.cos (omega_e * Real.sin (radians lat) * t * s),
       omega_e * Real.sin (radians lat) * t * s) := by
  refine ⟨rfl, ?_, ?_⟩
  · simp only [calculate_inertial_position, Bool.false_eq_true, if_false,
      Prod.mk.injEq]
    refine ⟨trivial, by ring⟩
  · simp only [rotate_to_earth_frame, Prod.mk.injEq]

/-- Witness for C1 at `t = 1`, `A = 130`, `lat = 45`, `s = 3600`. -/
theorem oscillating_mode_transform_witness :
    (0 : ℝ) ≤ 1 ∧ (-90 : ℝ) ≤ 45 ∧ (45 : ℝ) ≤ 90 ∧
    calculate_inertial_position 1 130 false =
      (130 * Real.cos (omega_0 * 1), 0.3 * 130 * Real.sin (omega_0 * 1)) :=
  ⟨by norm_num, by norm_num, by norm_num,
    (oscillating_mode_transform 1 130 45 3600 (by norm_num) (by norm_num)
      (by norm_num)).2.1⟩

/-! ## C4: fixed mode pins the bob and the rotation preserves the norm -/

/-- C4: in fixed mode with amplitude `A > 0`, the displayed position at
`t = 0` is exactly `(A, 0)`, and at every `t ≥ 0` its Euclidean magnitude is
exactly `A`. -/
theorem fixed_mode_norm (lat s A : ℝ) (hA : 0 < A) :
    (((rotate_to_earth_frame (calculate_inertial_position 0 A true).1
          (calculate_inertial_position 0 A true).2 0 lat s).1,
      (rotate_to_earth_frame (calculate_inertial_position 0 A true).1
          (calculate_inertial_position 0 A true).2 0 lat s).2.1) = (A, 0)) ∧
    ∀ t : ℝ, 0 ≤ t →
      Real.sqrt
        ((rotate_to_earth_frame (calculate_inertial_position t A true).1
            (calculate_inertial_position t A true).2 t lat s).1 ^ 2 +
         (rotate_to_earth_frame (calculate_inertial_position t A true).1
            (calculate_inertial_position t A true).2 t lat s).2.1 ^ 2) = A := by
  constructor
  · simp [calculate_inertial_position, rotate_to_earth_frame]
  · intro t ht
    simp only [calculate_inertial_position, if_true, rotate_to_earth_frame]
    have h :
        (A * Real.cos (omega_e * Real.sin (radians lat) * t * s) -
            0 * Real.sin (omega_e * Real.sin (radians lat) * t * s)) ^ 2 +
          (A * Real.sin (omega_e * Real.sin (radians lat) * t * s) +
            0 * Real.cos (omega_e * Real.sin (radians lat) * t * s)) ^ 2 =
          A ^ 2 := by
      have := Real.sin_sq_add_cos_sq (omega_e * Real.sin (radians lat) * t * s)
      nlinarith [this]
    rw [h]
    exact Real.sqrt_sq hA.le

/-- Witness for C4 at `lat = 45`, `s = 3600`, `A = 130`, checking the
magnitude at `t = 2`. -/
theorem fixed_mode_norm_witness :
    (0 : ℝ) < 130 ∧ (0 : ℝ) ≤ 2 ∧
    Real.sqrt
      ((rotate_to_earth_frame (calculate_inertial_position 2 130 true).1
          (calculate_inertial_position 2 130 true).2 2 45 3600).1 ^ 2 +
       (rotate_to_earth_frame (calculate_inertial_position 2 130 true).1
          (calculate_inertial_position 2 130 true).2 2 45 3600).2.1 ^ 2) =
      130 :=
  ⟨by norm_num, by norm_num,
    (fixed_mode_norm 45 3600 130 (by norm_num)).2 2 (by norm_num)⟩

/-! ## C5: full precession rate at the pole -/

/-- C5: at latitude 90 the rotation angle is exactly
`omega_e * time * speed_factor`, for every inertial position, time and
speed. -/
theorem pole_full_rate (x y t s : ℝ) :
    (rotate_to_earth_frame x y t 90 s).2.2 = omega_e * t * s := by
  rw [rotate_theta, radians_90, Real.sin_pi_div_two, mul_one]

/-! ## C6: the rotation angle is odd in latitude -/

/-- C6: for equal time and speed the rotation angle at latitude `φ` is the
negation of the angle at `-φ` (for any inertial positions), which forces the
angle to vanish at the equator. -/
theorem rotation_angle_odd (x y x' y' t s lat : ℝ) :
    (rotate_to_earth_frame x y t lat s).2.2 =
      -(rotate_to_earth_frame x' y' t (-lat) s).2.2 ∧
    (rotate_to_earth_frame x y t 0 s).2.2 = 0 := by
  constructor
  · rw [rotate_theta, rotate_theta, radians_neg, Real.sin_neg]
    ring
  · rw [rotate_theta, radians_zero, Real.sin_zero]
    ring

/-! ## C7: the precession period -/

/-- C7: the precession period is `24 / |sin(radians lat)|` hours whenever
`|sin(radians lat)| ≥ 0.01` and infinite when `|sin(radians lat)| < 0.01`;
in particular it is exactly 48 hours at latitude 30 and infinite at the
equator. -/
theorem precession_period_spec :
    (∀ lat : ℝ, 0.01 ≤ |Real.sin (radians lat)| →
      get_precession_period lat =
        Period.finite (24 / |Real.sin (radians lat)|)) ∧
    (∀ lat : ℝ, |Real.sin (radians lat)| < 0.01 →
      get_precession_period lat = Period.infinite) ∧
    get_precession_period 30 = Period.finite 48 ∧
    get_precession_period 0 = Period.infinite := by
  have hval : ∀ lat : ℝ, ¬ |Real.sin (radians lat)| < 0.01 →
      get_precession_period lat =
        Period.finite (24 / |Real.sin (radians lat)|) := by
    intro lat h
    simp only [get_precession_period, if_neg h]
    norm_num
  refine ⟨fun lat h => hval lat (not_lt.mpr h), ?_, ?_, ?_⟩
  · intro lat h
    simp only [get_precession_period, if_pos h]
  · have hsin : Real.sin (radians 30) = 1 / 2 := by
      rw [radians_30, Real.sin_pi_div_six]
    have h : ¬ |Real.sin (radians 30)| < 0.01 := by
      rw [hsin]; norm_num [abs_of_nonneg]
    rw [hval 30 h, hsin]
    norm_num [abs_of_nonneg]
  · have hsin : Real.sin (radians 0) = 0 := by
      rw [radians_zero, Real.sin_zero]
    simp only [get_precession_period, hsin]
    norm_num

/-- Witness for C7: the finite branch applied at latitude 30. -/
theorem precession_period_spec_witness :
    (0.01 : ℝ) ≤ |Real.sin (radians 30)| ∧
    get_precession_period 30 =
      Period.finite (24 / |Real.sin (radians 30)|) := by
  have hsin : Real.sin (radians 30) = 1 / 2 := by
    rw [radians_30, Real.sin_pi_div_six]
  have h : (0.01 : ℝ) ≤ |Real.sin (radians 30)| := by
    rw [hsin]; norm_num [abs_of_nonneg]
  exact ⟨h, precession_period_spec.1 30 h⟩

/-! ## C9: the location classification -/

/-- C9: `get_location_info` is a pure function of `(latitude, fixed_mode)`
whose label is always exactly one of the four fixed strings, with fixed mode
taking precedence, then `|latitude| < 5` → Equator, `|latitude| > 85` → Pole,
and Mid-Latitude otherwise. -/
theorem location_classification (lat : ℝ) (fm : Bool) :
    (fm = true → (get_location_info lat fm).name = "FIXED PENDULUM") ∧
    (fm = false → |lat| < 5 → (get_location_info lat fm).name = "EQUATOR") ∧
    (fm = false → |lat| > 85 → (get_location_info lat fm).name = "POLE") ∧
    (fm = false → ¬ |lat| < 5 → ¬ |lat| > 85 →
      (get_location_info lat fm).name = "MID-LATITUDE") ∧
    ((get_location_info lat fm).name = "FIXED PENDULUM" ∨
     (get_location_info lat fm).name = "EQUATOR" ∨
     (get_location_info lat fm).name = "POLE" ∨
     (get_location_info lat fm).name = "MID-LATITUDE") := by
  cases fm with
  | true =>
      exact ⟨fun _ => rfl, fun h => Bool.noConfusion h,
        fun h => Bool.noConfusion h, fun h => Bool.noConfusion h, Or.inl rfl⟩
  | false =>
      refine ⟨fun h => Bool.noConfusion h, ?_, ?_, ?_, ?_⟩
      · intro _ h5
        simp [get_location_info, h5]
      · intro _ h85
        have h5 : ¬ |lat| < 5 := by
          push_neg
          linarith
        simp [get_location_info, h5, h85]
      · intro _ h5 h85
        simp [get_location_info, h5, h85]
      · by_cases h5 : |lat| < 5
        · exact Or.inr (Or.inl (by simp [get_location_info, h5]))
        · by_cases h85 : |lat| > 85
          · exact Or.inr (Or.inr (Or.inl (by simp [get_location_info, h5, h85])))
          · exact Or.inr (Or.inr (Or.inr (by simp [get_location_info, h5, h85])))

/-- Witness for C9: latitude 45 in oscillating mode is Mid-Latitude. -/
theorem location_classification_witness :
    (false = false ∧ ¬ |(45 : ℝ)| < 5 ∧ ¬ |(45 : ℝ)| > 85) ∧
    (get_location_info 45 false).name = "MID-LATITUDE" := by
  have h5 : ¬ |(45 : ℝ)| < 5 := by
    rw [abs_of_nonneg (by norm_num : (0:ℝ) ≤ 45)]; norm_num
  have h85 : ¬ |(45 : ℝ)| > 85 := by
    rw [abs_of_nonneg (by norm_num : (0:ℝ) ≤ 45)]; norm_num
  exact ⟨⟨rfl, h5, h85⟩,
    (location_classification 45 false).2.2.2.1 rfl h5 h85⟩

/-! ## C10: a paused tick freezes the whole state -/

/-- C10: while paused, `update` returns `(None, None)` and a whole tick
(`update` then `draw`) leaves the state — time, rotation angle, trail and
everything else except nothing at all — unchanged, so no bob is drawn and no
trail point is appended that frame. -/
theorem paused_tick_frozen (s : SimState) (h : s.paused = true) :
    step s Command.tick = s ∧ (update s).2 = none := by
  have hu : update s = (s, none) := by
    simp [update, h]
  constructor
  · show draw (update s).1 (update s).2 = s
    rw [hu]
    rfl
  · rw [hu]

/-- Witness for C10 at the initial state with the pause flag set. -/
theorem paused_tick_frozen_witness :
    ({ init_state with paused := true } : SimState).paused = true ∧
    step { init_state with paused := true } Command.tick =
      { init_state with paused := true } ∧
    (update { init_state with paused := true }).2 = none :=
  ⟨rfl, paused_tick_frozen { init_state with paused := true } rfl⟩

/-! ## C3: which commands reset the phase reference -/

/-- C3: the three latitude presets, a latitude-slider drag and the
fixed-mode toggle all zero `time` and empty the trail, while toggling pause
or dragging the speed slider leaves `time` and the trail unchanged. -/
theorem reconfiguration_resets (s : SimState) (px : ℝ) :
    ((step s Command.presetEquator).time = 0 ∧
      (step s Command.presetEquator).trail = []) ∧
    ((step s Command.presetMid).time = 0 ∧
      (step s Command.presetMid).trail = []) ∧
    ((step s Command.presetPole).time = 0 ∧
      (step s Command.presetPole).trail = []) ∧
    (s.dragging_lat = true →
      (step s (Command.mouseMotion px)).time = 0 ∧
      (step s (Command.mouseMotion px)).trail = []) ∧
    ((step s Command.toggleFixed).time = 0 ∧
      (step s Command.toggleFixed).trail = []) ∧
    ((step s Command.togglePause).time = s.time ∧
      (step s Command.togglePause).trail = s.trail) ∧
    (s.dragging_lat = false → s.dragging_speed = true →
      (step s (Command.mouseMotion px)).time = s.time ∧
      (step s (Command.mouseMotion px)).trail = s.trail) := by
  refine ⟨⟨rfl, rfl⟩, ⟨rfl, rfl⟩, ⟨rfl, rfl⟩, ?_, ⟨rfl, rfl⟩, ⟨rfl, rfl⟩, ?_⟩
  · intro hlat
    constructor <;> simp [step, handle_mouse_motion, hlat, reset]
  · intro hlat hspeed
    constructor <;> simp [step, handle_mouse_motion, hlat, hspeed]

/-- Witness for C3: one state mid-latitude-drag and one mid-speed-drag. -/
theorem reconfiguration_resets_witness :
    (({ init_state with dragging_lat := true } : SimState).dragging_lat =
        true ∧
      (step { init_state with dragging_lat := true }
          (Command.mouseMotion 10)).time = 0 ∧
      (step { init_state with dragging_lat := true }
          (Command.mouseMotion 10)).trail = []) ∧
    (({ init_state with dragging_speed := true } : SimState).dragging_lat =
        false ∧
      ({ init_state with dragging_speed := true } : SimState).dragging_speed =
        true ∧
      (step { init_state with dragging_speed := true }
          (Command.mouseMotion 10)).time =
        ({ init_state with dragging_speed := true } : SimState).time ∧
      (step { init_state with dragging_speed := true }
          (Command.mouseMotion 10)).trail =
        ({ init_state with dragging_speed := true } : SimState).trail) :=
  ⟨⟨rfl, (reconfiguration_resets { init_state with dragging_lat := true }
      10).2.2.2.1 rfl⟩,
   ⟨rfl, rfl, (reconfiguration_resets
      { init_state with dragging_speed := true } 10).2.2.2.2.2.2 rfl rfl⟩⟩

/-! ## C8: the trail is a bounded FIFO -/

theorem draw_pendulum_length_le (trail : List (ℝ × ℝ)) (x y : ℝ) (fm : Bool)
    (h : trail.length ≤ max_trail_points) :
    (draw_pendulum trail x y fm).length ≤ max_trail_points := by
  unfold draw_pendulum
  split
  · exact h
  · show (if max_trail_points <
          (trail ++ [(center_x + x, center_y + y)]).length
        then (trail ++ [(center_x + x, center_y + y)]).tail
        else trail ++ [(center_x + x, center_y + y)]).length ≤
      max_trail_points
    split
    · rename_i hgt
      simp only [List.length_tail, List.length_append, List.length_singleton]
      omega
    · rename_i hle
      simp only [not_lt, List.length_append, List.length_singleton] at hle
      simpa using hle

/-- Explicit form of `update` on an unpaused state. -/
theorem update_not_paused (s : SimState) (hp : s.paused = false) :
    update s =
      ({ s with
          time := s.time + dt
          rotation_angle :=
            (rotate_to_earth_frame
              (calculate_inertial_position (s.time + dt) s.amplitude
                s.fixed_mode).1
              (calculate_inertial_position (s.time + dt) s.amplitude
                s.fixed_mode).2
              (s.time + dt) s.latitude s.speed_factor).2.2 },
       some
         ((rotate_to_earth_frame
             (calculate_inertial_position (s.time + dt) s.amplitude
               s.fixed_mode).1
             (calculate_inertial_position (s.time + dt) s.amplitude
               s.fixed_mode).2
             (s.time + dt) s.latitude s.speed_factor).1,
          (rotate_to_earth_frame
             (calculate_inertial_position (s.time + dt) s.amplitude
               s.fixed_mode).1
             (calculate_inertial_position (s.time + dt) s.amplitude
               s.fixed_mode).2
             (s.time + dt) s.latitude s.speed_factor).2.1)) := by
  unfold update
  rw [if_neg (by simp [hp])]

theorem step_trail_length_le (s : SimState) (c : Command)
    (h : s.trail.length ≤ max_trail_points) :
    (step s c).trail.length ≤ max_trail_points := by
  cases c with
  | tick =>
      show (draw (update s).1 (update s).2).trail.length ≤ _
      by_cases hp : s.paused = true
      · have hu : update s = (s, none) := by simp [update, hp]
        rw [hu]
        exact h
      · have hp' : s.paused = false := by
          simpa using hp
        rw [update_not_paused s hp']
        exact draw_pendulum_length_le _ _ _ _ h
  | togglePause => exact h
  | toggleFixed => simp [step, reset]
  | toggleInfo => exact h
  | resetCmd => simp [step, reset]
  | presetEquator => simp [step, set_latitude, reset]
  | presetMid => simp [step, set_latitude, reset]
  | presetPole => simp [step, set_latitude, reset]
  | startDragLat => exact h
  | startDragSpeed => exact h
  | stopDrag => exact h
  | mouseMotion px =>
      show (handle_mouse_motion s px).trail.length ≤ _
      unfold handle_mouse_motion
      split
      · simp [reset]
      · split
        · exact h
        · exact h

theorem foldl_trail_length_le (cmds : List Command) :
    ∀ s : SimState, s.trail.length ≤ max_trail_points →
      (cmds.foldl step s).trail.length ≤ max_trail_points := by
  induction cmds with
  | nil => intro s h; exact h
  | cons c cs ih =>
      intro s h
      exact ih (step s c) (step_trail_length_le s c h)

/-- C8: in every reachable controller state the trail holds at most 400
points; appending to a full trail evicts the oldest point (FIFO); nothing is
appended in fixed mode; and `reset` (run by every reconfiguration) empties
the trail. -/
theorem trail_bounded_fifo :
    (∀ cmds : List Command, (run cmds).trail.length ≤ 400) ∧
    (∀ (trail : List (ℝ × ℝ)) (x y : ℝ), trail.length = 400 →
      draw_pendulum trail x y false =
        trail.tail ++ [(center_x + x, center_y + y)]) ∧
    (∀ (trail : List (ℝ × ℝ)) (x y : ℝ),
      draw_pendulum trail x y true = trail) ∧
    (∀ s : SimState, (reset s).trail = []) := by
  refine ⟨?_, ?_, ?_, fun s => rfl⟩
  · intro cmds
    exact foldl_trail_length_le cmds init_state (by simp [init_state])
  · intro trail x y hlen
    unfold draw_pendulum
    rw [if_neg (by simp)]
    rw [if_pos (by simp [hlen, max_trail_points])]
    cases trail with
    | nil => simp at hlen
    | cons a t => simp
  · intro trail x y
    unfold draw_pendulum
    rw [if_pos rfl]

/-- Witness for C8: evicting from a concrete full trail. -/
theorem trail_bounded_fifo_witness :
    (List.replicate 400 ((0 : ℝ), (0 : ℝ))).length = 400 ∧
    draw_pendulum (List.replicate 400 ((0 : ℝ), (0 : ℝ))) 1 2 false =
      (List.replicate 400 ((0 : ℝ), (0 : ℝ))).tail ++
        [(center_x + 1, center_y + 2)] :=
  ⟨by rw [List.length_replicate],
   trail_bounded_fifo.2.1 (List.replicate 400 ((0 : ℝ), (0 : ℝ))) 1 2
     (by rw [List.length_replicate])⟩

/-! ## C2: consistency of `rotation_angle` with `(time, latitude, speed)` -/

/-- The §4.1 consistency relation the spec asserts between the stored
rotation angle and the current time, latitude and speed multiplier. -/
def RotationInv (s : SimState) : Prop :=
  s.rotation_angle =
    omega_e * Real.sin (radians s.latitude) * s.time * s.speed_factor

theorem rotation_inv_reset (s : SimState) : RotationInv (reset s) := by
  simp [RotationInv, reset]

theorem rotation_inv_init : RotationInv init_state := by
  simp [RotationInv, init_state]

theorem step_rotation_inv (s : SimState) (c : Command)
    (hc : c.isStartDragSpeed = false) (hds : s.dragging_speed = false)
    (hInv : RotationInv s) :
    RotationInv (step s c) ∧ (step s c).dragging_speed = false := by
  cases c with
  | tick =>
      by_cases hp : s.paused = true
      · have hu : update s = (s, none) := by simp [update, hp]
        have hstep : step s Command.tick = s := by
          show draw (update s).1 (update s).2 = s
          rw [hu]
          rfl
        rw [hstep]
        exact ⟨hInv, hds⟩
      · have hp' : s.paused = false := by simpa using hp
        constructor
        · show RotationInv (draw (update s).1 (update s).2)
          rw [update_not_paused s hp']
          unfold RotationInv
          rfl
        · show (draw (update s).1 (update s).2).dragging_speed = false
          rw [update_not_paused s hp']
          exact hds
  | togglePause => exact ⟨hInv, hds⟩
  | toggleFixed => exact ⟨rotation_inv_reset _, hds⟩
  | toggleInfo => exact ⟨hInv, hds⟩
  | resetCmd => exact ⟨rotation_inv_reset _, hds⟩
  | presetEquator => exact ⟨rotation_inv_reset _, hds⟩
  | presetMid => exact ⟨rotation_inv_reset _, hds⟩
  | presetPole => exact ⟨rotation_inv_reset _, hds⟩
  | startDragLat => exact ⟨hInv, hds⟩
  | startDragSpeed => simp [Command.isStartDragSpeed] at hc
  | stopDrag => exact ⟨hInv, rfl⟩
  | mouseMotion px =>
      show RotationInv (handle_mouse_motion s px) ∧
        (handle_mouse_motion s px).dragging_speed = false
      unfold handle_mouse_motion
      split
      · exact ⟨rotation_inv_reset _, hds⟩
      · rw [if_neg (by simp [hds])]
        exact ⟨hInv, hds⟩

theorem foldl_rotation_inv (cmds : List Command) :
    ∀ s : SimState, (∀ c ∈ cmds, c.isStartDragSpeed = false) →
      s.dragging_speed = false → RotationInv s →
      RotationInv (cmds.foldl step s) ∧
        (cmds.foldl step s).dragging_speed = false := by
  induction cmds with
  | nil => intro s _ hds hInv; exact ⟨hInv, hds⟩
  | cons c cs ih =>
      intro s hall hds hInv
      have hstep := step_rotation_inv s c (hall c (by simp)) hds hInv
      exact ih (step s c)
        (fun c' hc' => hall c' (List.mem_cons_of_mem _ hc'))
        hstep.2 hstep.1

/-- Counterexample to C2: advance one tick at the pole (latitude preset 90),
then drag the speed slider to its left end.  The stored rotation angle was
computed with speed factor 3600, but the current speed factor is 100, so the
claimed consistency fails in this reachable state. -/
theorem rotation_consistency_cex :
    ¬ RotationInv (run [Command.presetPole, Command.tick,
      Command.togglePause, Command.startDragSpeed, Command.mouseMotion 0,
      Command.tick]) := by
  intro h
  unfold RotationInv at h
  rw [show (run [Command.presetPole, Command.tick, Command.togglePause,
        Command.startDragSpeed, Command.mouseMotion 0,
        Command.tick]).rotation_angle =
      omega_e * Real.sin (radians 90) * (0 + dt) * 3600 from rfl,
    show (run [Command.presetPole, Command.tick, Command.togglePause,
        Command.startDragSpeed, Command.mouseMotion 0,
        Command.tick]).latitude = 90 from rfl,
    show (run [Command.presetPole, Command.tick, Command.togglePause,
        Command.startDragSpeed, Command.mouseMotion 0,
        Command.tick]).time = 0 + dt from rfl,
    show (run [Command.presetPole, Command.tick, Command.togglePause,
        Command.startDragSpeed, Command.mouseMotion 0,
        Command.tick]).speed_factor =
      map_from_slider (max 0 (min 220 0)) 100 10000 from rfl,
    radians_90, Real.sin_pi_div_two] at h
  rw [show ((max 0 (min 220 0) : ℝ)) = 0 by norm_num] at h
  rw [map_from_slider] at h
  norm_num [omega_e, dt] at h

/-- C2 (amended): the consistency invariant holds in every state reachable
without a speed-slider drag — a speed change leaves the stored angle stale
until the next tick or reset recomputes it — and no command other than an
unpaused tick and the reset-triggering reconfigurations ever writes
`rotation_angle`. -/
theorem rotation_consistency_amended :
    (∀ cmds : List Command,
      (∀ c ∈ cmds, c.isStartDragSpeed = false) → RotationInv (run cmds)) ∧
    (∀ (s : SimState) (px : ℝ),
      (step s Command.togglePause).rotation_angle = s.rotation_angle ∧
      (step s Command.toggleInfo).rotation_angle = s.rotation_angle ∧
      (step s Command.startDragLat).rotation_angle = s.rotation_angle ∧
      (step s Command.startDragSpeed).rotation_angle = s.rotation_angle ∧
      (step s Command.stopDrag).rotation_angle = s.rotation_angle ∧
      (s.dragging_lat = false →
        (step s (Command.mouseMotion px)).rotation_angle =
          s.rotation_angle)) := by
  constructor
  · intro cmds hall
    exact (foldl_rotation_inv cmds init_state hall rfl rotation_inv_init).1
  · intro s px
    refine ⟨rfl, rfl, rfl, rfl, rfl, ?_⟩
    intro hlat
    show (handle_mouse_motion s px).rotation_angle = s.rotation_angle
    unfold handle_mouse_motion
    rw [if_neg (by simp [hlat])]
    split
    · rfl
    · rfl

/-- Witness for C2 (amended): a tick followed by a pause toggle, a latitude
preset and a reset keeps the invariant. -/
theorem rotation_consistency_amended_witness :
    (∀ c ∈ [Command.tick, Command.togglePause, Command.presetMid,
        Command.resetCmd], c.isStartDragSpeed = false) ∧
    RotationInv (run [Command.tick, Command.togglePause, Command.presetMid,
      Command.resetCmd]) := by
  have hall : ∀ c ∈ [Command.tick, Command.togglePause, Command.presetMid,
      Command.resetCmd], c.isStartDragSpeed = false := by
    intro c hc
    simp only [List.mem_cons, List.not_mem_nil, or_false] at hc
    rcases hc with rfl | rfl | rfl | rfl <;> rfl
  exact ⟨hall, rotation_consistency_amended.1 _ hall⟩

end Pendulum
